import Mathlib

/-!
Shallow embedding of the ntex typed request-handler adapter
(src/ntex/src/web/handler.rs) and of the access-log middleware
(src/ntex/src/web/middleware/logger.rs), with proofs of the
spec-level properties of both components.

Futures are modelled as a countdown: a future `⟨p, v⟩` answers
`Pending` to its first `p` polls and then resolves to `v`.  This is
exactly the observable behaviour of a well-behaved Rust future as seen
from a poll loop; concrete pending counts are arbitrary, so all
interleavings of synchronous and asynchronous sub-futures are covered.
-/

/-- A pollable future: `pending` remaining `Poll::Pending` answers,
then it resolves to `value`. -/
structure Fut (α : Type) where
  pending : Nat
  value : α
deriving Repr

/-- One poll of a future: `.inl f` is `Poll::Pending` (with the
successor state), `.inr v` is `Poll::Ready(v)`. -/
def Fut.poll {α : Type} (f : Fut α) : Fut α ⊕ α :=
  match f.pending with
  | 0 => .inr f.value
  | p + 1 => .inl ⟨p, f.value⟩

namespace Dispatch

/-- `WebResponse` as the handler adapter observes it: either built by
`WebResponse::new(head, body)` from a request head and a produced body,
or by `WebResponse::from_err(e, head)` rendering an error container
against the head. -/
inductive WebResponse (H B C : Type) where
  | new (head : H) (body : B)
  | from_err (err : C) (head : H)
deriving Repr

/-- The capabilities the dispatch state machine consumes: the
`Responder::respond_to` conversion of a handler output against the
request head, and the two `Into<Err::Container>` conversions for
extraction errors and responder errors. -/
structure Ctx (T O H B EE RE C : Type) where
  respond_to : O → H → Fut (Except RE B)
  into_ext : EE → C
  into_resp : RE → C

/-- The in-place dispatch future `HandlerWrapperResponse`: the handler,
the three optional sub-future slots (extractor, handler, responder) and
the optional request head, exactly as in the source struct. -/
structure HandlerWrapperResponse (T O H B EE RE : Type) where
  hnd : T → Fut O
  fut1 : Option (Fut (Except EE T))
  fut2 : Option (Fut O)
  fut3 : Option (Fut (Except RE B))
  req : Option H

/-- The observable outcome of one external call of `poll`:
the post-state, the output (`none` = `Poll::Pending`, `some r` =
`Poll::Ready(r)`), the number of handler invocations performed during
the call, the number of nested self-resumptions (`self.poll(cx)`
re-entries), and the number of `req.take()` consumptions. -/
structure PollStep (T O H B EE RE C : Type) where
  state : HandlerWrapperResponse T O H B EE RE
  out : Option (Except C (WebResponse H B C))
  calls : Nat
  depth : Nat
  takes : Nat

/-- Termination measure for the self-resuming poll: each phase
transition strictly lowers it. -/
def rank {T O H B EE RE : Type} (s : HandlerWrapperResponse T O H B EE RE) : Nat :=
  (if s.fut1.isSome then 4 else 0) +
    (if s.fut2.isSome then 2 else 0) +
    (if s.fut3.isSome then 1 else 0)

/-- `HandlerWrapperResponse::poll`, translated clause by clause.
`none` models a panic (an `unwrap` of a missing head, or reaching the
`unreachable!()` arm).  On a successful extraction the handler is
called and the poll re-enters itself with `fut2` populated; on a
resolved handler future `respond_to` is built against the head
(`req.as_ref().unwrap()`) and the poll re-enters with `fut3`
populated; every `Ready` return takes the head exactly where the
source calls `req.take().unwrap()`. -/
def poll {T O H B EE RE C : Type} (ctx : Ctx T O H B EE RE C)
    (s : HandlerWrapperResponse T O H B EE RE) :
    Option (PollStep T O H B EE RE C) :=
  match h1 : s.fut1 with
  | some fut =>
    match fut.poll with
    | .inr (.ok param) =>
      let f2 := s.hnd param
      match poll ctx { s with fut1 := none, fut2 := some f2 } with
      | some st => some { st with calls := st.calls + 1, depth := st.depth + 1 }
      | none => none
    | .inl f' => some ⟨{ s with fut1 := some f' }, none, 0, 0, 0⟩
    | .inr (.error e) =>
      match s.req with
      | some head =>
        some ⟨{ s with req := none },
          some (.ok (.from_err (ctx.into_ext e) head)), 0, 0, 1⟩
      | none => none
  | none =>
    match h2 : s.fut2 with
    | some fut =>
      match fut.poll with
      | .inr res =>
        match s.req with
        | some head =>
          let f3 := ctx.respond_to res head
          match poll ctx { s with fut2 := none, fut3 := some f3 } with
          | some st => some { st with depth := st.depth + 1 }
          | none => none
        | none => none
      | .inl f' => some ⟨{ s with fut2 := some f' }, none, 0, 0, 0⟩
    | none =>
      match s.fut3 with
      | some fut =>
        match fut.poll with
        | .inr (.ok res) =>
          match s.req with
          | some head =>
            some ⟨{ s with req := none },
              some (.ok (.new head res)), 0, 0, 1⟩
          | none => none
        | .inl f' => some ⟨{ s with fut3 := some f' }, none, 0, 0, 0⟩
        | .inr (.error e) =>
          match s.req with
          | some head =>
            some ⟨{ s with req := none },
              some (.ok (.from_err (ctx.into_resp e) head)), 0, 0, 1⟩
          | none => none
      | none => none
termination_by rank s
decreasing_by
  · simp only [rank, h1, Option.isSome_some, Option.isSome_none]
    cases s.fut3 <;> simp <;> omega
  · simp only [rank, h1, h2, Option.isSome_some, Option.isSome_none]
    cases s.fut3 <;> simp <;> omega

/-- The outcome of driving the dispatch future to completion: final
state, its resolved output, and the accumulated handler-invocation and
head-consumption counts over all external polls. -/
structure RunResult (T O H B EE RE C : Type) where
  state : HandlerWrapperResponse T O H B EE RE
  result : Except C (WebResponse H B C)
  calls : Nat
  takes : Nat

/-- Drive the dispatch future by repeated external polls (as the
executor does), with `fuel` bounding the number of polls; `none` is a
panic or fuel exhaustion. -/
def run {T O H B EE RE C : Type} (ctx : Ctx T O H B EE RE C) :
    Nat → HandlerWrapperResponse T O H B EE RE →
    Option (RunResult T O H B EE RE C)
  | 0, _ => none
  | fuel + 1, s =>
    match poll ctx s with
    | none => none
    | some st =>
      match st.out with
      | some r => some ⟨st.state, r, st.calls, st.takes⟩
      | none =>
        match run ctx fuel st.state with
        | some rr =>
          some { rr with calls := st.calls + rr.calls, takes := st.takes + rr.takes }
        | none => none

/-- The adapter `HandlerWrapper`: it owns the handler. -/
structure HandlerWrapper (T O : Type) where
  hnd : T → Fut O

/-- `HandlerFn::call` for `HandlerWrapper`: split the request envelope
into head and payload, build the extractor future against them, and
return the dispatch future freshly initialised in the extracting
phase with the head retained. -/
def HandlerWrapper.call {T O H P B EE RE : Type} (w : HandlerWrapper T O)
    (from_request : H → P → Fut (Except EE T)) (head : H) (payload : P) :
    HandlerWrapperResponse T O H B EE RE :=
  ⟨w.hnd, some (from_request head payload), none, none, some head⟩

/-- `HandlerFn::clone_handler`: a new adapter holding a clone of the
same handler. -/
def HandlerWrapper.clone_handler {T O : Type} (w : HandlerWrapper T O) :
    HandlerWrapper T O :=
  ⟨w.hnd⟩

/-- The response the pipeline is expected to resolve to, as a function
of the extractor's resolved value: extraction errors and responder
errors are rendered via `from_err` against the head, and a fully
successful pipeline reattaches the head to the responder's body. -/
def dispatchResult {T O H B EE RE C : Type} (ctx : Ctx T O H B EE RE C)
    (hnd : T → Fut O) (ext : Except EE T) (head : H) : WebResponse H B C :=
  match ext with
  | .error e => .from_err (ctx.into_ext e) head
  | .ok param =>
    match (ctx.respond_to (hnd param).value head).value with
    | .ok body => .new head body
    | .error e => .from_err (ctx.into_resp e) head

/-- How many times the handler is invoked for a given extraction
outcome: zero on failure, one on success. -/
def dispatchCalls {T EE : Type} (ext : Except EE T) : Nat :=
  match ext with
  | .error _ => 0
  | .ok _ => 1

/-- Exactly enough external polls to resolve the dispatch future: the
pendings of the live sub-futures along its path, plus the final
resolving poll. -/
def neededFuel {T O H B EE RE C : Type} (ctx : Ctx T O H B EE RE C)
    (hnd : T → Fut O) (ext : Fut (Except EE T)) (head : H) : Nat :=
  ext.pending +
    (match ext.value with
     | .error _ => 0
     | .ok param =>
       (hnd param).pending + (ctx.respond_to (hnd param).value head).pending) + 1

/-- The response produced by the responding phase from the responder
future's resolved value. -/
def respOut {H B RE C : Type} {T O EE : Type} (ctx : Ctx T O H B EE RE C)
    (v : Except RE B) (head : H) : WebResponse H B C :=
  match v with
  | .ok b => .new head b
  | .error e => .from_err (ctx.into_resp e) head

/-- The dispatch future's state at the instant it resolves, as a
function of the extractor's resolved value: on extraction failure the
machine never left the extracting phase; otherwise it sits in the
responding phase.  In both cases the head has been consumed. -/
def finalState {T O H B EE RE C : Type} (ctx : Ctx T O H B EE RE C)
    (hnd : T → Fut O) (ext : Except EE T) (head : H) :
    HandlerWrapperResponse T O H B EE RE :=
  match ext with
  | .error e => ⟨hnd, some ⟨0, .error e⟩, none, none, none⟩
  | .ok param =>
    ⟨hnd, none, none, some ⟨0, (ctx.respond_to (hnd param).value head).value⟩, none⟩

section StepLemmas

variable {T O H B EE RE C : Type} (ctx : Ctx T O H B EE RE C)

theorem poll_fut1_pending (hnd : T → Fut O) (p : Nat) (v : Except EE T)
    (f2 : Option (Fut O)) (f3 : Option (Fut (Except RE B))) (r : Option H) :
    poll ctx ⟨hnd, some ⟨p + 1, v⟩, f2, f3, r⟩ =
      some ⟨⟨hnd, some ⟨p, v⟩, f2, f3, r⟩, none, 0, 0, 0⟩ := by
  simp [poll, Fut.poll]

theorem poll_fut1_err (hnd : T → Fut O) (e : EE) (f2 : Option (Fut O))
    (f3 : Option (Fut (Except RE B))) (head : H) :
    poll ctx ⟨hnd, some ⟨0, .error e⟩, f2, f3, some head⟩ =
      some ⟨⟨hnd, some ⟨0, Except.error e⟩, f2, f3, none⟩,
        some (.ok (.from_err (ctx.into_ext e) head)), 0, 0, 1⟩ := by
  simp [poll, Fut.poll]

theorem poll_fut1_ok (hnd : T → Fut O) (param : T) (f2 : Option (Fut O))
    (f3 : Option (Fut (Except RE B))) (r : Option H) :
    poll ctx ⟨hnd, some ⟨0, .ok param⟩, f2, f3, r⟩ =
      match poll ctx ⟨hnd, none, some (hnd param), f3, r⟩ with
      | some st => some { st with calls := st.calls + 1, depth := st.depth + 1 }
      | none => none := by
  simp [poll, Fut.poll]

theorem poll_fut2_pending (hnd : T → Fut O) (p : Nat) (v : O)
    (f3 : Option (Fut (Except RE B))) (r : Option H) :
    poll (C := C) ctx
      (⟨hnd, none, some ⟨p + 1, v⟩, f3, r⟩ : HandlerWrapperResponse T O H B EE RE) =
      some ⟨⟨hnd, none, some ⟨p, v⟩, f3, r⟩, none, 0, 0, 0⟩ := by
  simp [poll, Fut.poll]

theorem poll_fut3_pending (hnd : T → Fut O) (p : Nat) (v : Except RE B)
    (r : Option H) :
    poll (C := C) ctx
      (⟨hnd, none, none, some ⟨p + 1, v⟩, r⟩ : HandlerWrapperResponse T O H B EE RE) =
      some ⟨⟨hnd, none, none, some ⟨p, v⟩, r⟩, none, 0, 0, 0⟩ := by
  simp [poll, Fut.poll]

theorem poll_fut3_ready (hnd : T → Fut O) (v : Except RE B) (head : H) :
    poll (C := C) ctx
      (⟨hnd, none, none, some ⟨0, v⟩, some head⟩ : HandlerWrapperResponse T O H B EE RE) =
      some ⟨⟨hnd, none, none, some ⟨0, v⟩, none⟩,
        some (.ok (respOut ctx v head)), 0, 0, 1⟩ := by
  cases v <;> simp [poll, Fut.poll, respOut]

theorem poll_fut2_ready (hnd : T → Fut O) (v2 : O)
    (f3 : Option (Fut (Except RE B))) (head : H) :
    poll (C := C) ctx
      (⟨hnd, none, some ⟨0, v2⟩, f3, some head⟩ : HandlerWrapperResponse T O H B EE RE) =
      match poll ctx ⟨hnd, none, none, some (ctx.respond_to v2 head), some head⟩ with
      | some st => some { st with depth := st.depth + 1 }
      | none => none := by
  simp [poll, Fut.poll]

/-- Closed form of one poll of the invoking phase with a resolved
handler future: either the responder future is immediately ready
(resolve, consuming the head) or the machine parks in the responding
phase. -/
theorem poll_phase2_zero (hnd : T → Fut O) (v2 : O) (head : H) :
    poll (C := C) ctx
      (⟨hnd, none, some ⟨0, v2⟩, none, some head⟩ : HandlerWrapperResponse T O H B EE RE) =
      match (ctx.respond_to v2 head).pending with
      | 0 => some ⟨⟨hnd, none, none, some ⟨0, (ctx.respond_to v2 head).value⟩, none⟩,
          some (.ok (respOut ctx (ctx.respond_to v2 head).value head)), 0, 1, 1⟩
      | q + 1 =>
        some ⟨⟨hnd, none, none, some ⟨q, (ctx.respond_to v2 head).value⟩, some head⟩,
          none, 0, 1, 0⟩ := by
  rw [poll_fut2_ready]
  rcases h3 : ctx.respond_to v2 head with ⟨p3, v3⟩
  match p3 with
  | 0 => rw [poll_fut3_ready]
  | q + 1 => rw [poll_fut3_pending]

end StepLemmas

section RunLemmas

variable {T O H B EE RE C : Type} (ctx : Ctx T O H B EE RE C)

theorem run_phase3 (hnd : T → Fut O) (p : Nat) (v : Except RE B) (head : H) :
    run ctx (p + 1)
      (⟨hnd, none, none, some ⟨p, v⟩, some head⟩ : HandlerWrapperResponse T O H B EE RE) =
      some ⟨⟨hnd, none, none, some ⟨0, v⟩, none⟩, .ok (respOut ctx v head), 0, 1⟩ := by
  induction p with
  | zero => rw [run, poll_fut3_ready]
  | succ q ih => rw [run, poll_fut3_pending]; simp [ih]

theorem run_phase2 (hnd : T → Fut O) (p : Nat) (v2 : O) (head : H) :
    run ctx (p + (ctx.respond_to v2 head).pending + 1)
      (⟨hnd, none, some ⟨p, v2⟩, none, some head⟩ : HandlerWrapperResponse T O H B EE RE) =
      some ⟨⟨hnd, none, none, some ⟨0, (ctx.respond_to v2 head).value⟩, none⟩,
        .ok (respOut ctx (ctx.respond_to v2 head).value head), 0, 1⟩ := by
  induction p with
  | zero =>
    rw [Nat.zero_add, run, poll_phase2_zero]
    rcases h3 : ctx.respond_to v2 head with ⟨p3, v3⟩
    match p3 with
    | 0 => rfl
    | q + 1 => simp only; rw [run_phase3]; simp
  | succ q ih =>
    have harith : q + 1 + (ctx.respond_to v2 head).pending + 1 =
        (q + (ctx.respond_to v2 head).pending + 1) + 1 := by omega
    rw [harith, run, poll_fut2_pending]; simp [ih]

theorem dispatchResult_ok (hnd : T → Fut O) (param : T) (head : H) :
    dispatchResult ctx hnd (.ok param) head =
      respOut ctx ((ctx.respond_to (hnd param).value head).value) head := rfl

/-- Total correctness of the dispatch future: driven with exactly
`neededFuel` external polls, it resolves (no panic, no fuel
exhaustion) to `Ok` of the expected response, having invoked the
handler `dispatchCalls` times and consumed the head exactly once. -/
theorem run_dispatch (hnd : T → Fut O) (f1 : Fut (Except EE T)) (head : H) :
    run ctx (neededFuel ctx hnd f1 head) ⟨hnd, some f1, none, none, some head⟩ =
      some ⟨finalState ctx hnd f1.value head,
        .ok (dispatchResult ctx hnd f1.value head), dispatchCalls f1.value, 1⟩ := by
  rcases f1 with ⟨p1, v1⟩
  induction p1 with
  | zero =>
    match v1 with
    | .error e =>
      rw [neededFuel, run, poll_fut1_err]
      rfl
    | .ok param =>
      rcases h2 : hnd param with ⟨p2, v2⟩
      rcases h3 : ctx.respond_to v2 head with ⟨p3, v3⟩
      rw [neededFuel]
      simp only [finalState, dispatchResult_ok, dispatchCalls, h2, h3]
      match p2 with
      | 0 =>
        rw [run, poll_fut1_ok]
        simp only [h2]
        rw [poll_phase2_zero]
        simp only [h3]
        match p3 with
        | 0 => simp
        | q + 1 =>
          simp only
          have harith : 0 + (0 + (q + 1)) = q + 1 := by omega
          rw [harith, run_phase3]
          simp
      | q + 1 =>
        rw [run, poll_fut1_ok]
        simp only [h2]
        rw [poll_fut2_pending]
        simp only
        have hr := run_phase2 (B := B) ctx hnd q v2 head
        rw [h3] at hr
        simp only at hr
        have harith : 0 + (q + 1 + p3) = q + p3 + 1 := by omega
        rw [harith, hr]
        simp
  | succ q ih =>
    have harith : neededFuel ctx hnd ⟨q + 1, v1⟩ head =
        (neededFuel ctx hnd ⟨q, v1⟩ head) + 1 := by
      simp [neededFuel]; omega
    rw [harith, run, poll_fut1_pending]
    simp [ih]

end RunLemmas

section InvariantLemmas

variable {T O H B EE RE C : Type} (ctx : Ctx T O H B EE RE C)

/-- Exhaustive behaviour of one poll of the responding phase: no
self-resumption, no handler call, a pending poll leaves the head
untouched, and a resolving poll consumes the head exactly once. -/
theorem poll_phase3_cases (hnd : T → Fut O) (f3 : Option (Fut (Except RE B)))
    (r : Option H) (st : PollStep T O H B EE RE C)
    (h : poll ctx ⟨hnd, none, none, f3, r⟩ = some st) :
    st.depth = 0 ∧ st.calls = 0 ∧
      (st.out = none → st.state.req = r ∧ st.takes = 0) ∧
      (∀ res, st.out = some res →
        st.state.req = none ∧ st.takes = 1 ∧ ∃ resp, res = .ok resp) := by
  match f3 with
  | none => simp [poll] at h
  | some ⟨p + 1, v⟩ => rw [poll_fut3_pending] at h; cases h; simp
  | some ⟨0, v⟩ =>
    match r with
    | some head => rw [poll_fut3_ready] at h; cases h; simp
    | none => cases v <;> simp [poll, Fut.poll] at h

/-- Exhaustive behaviour of one poll of the invoking phase: at most one
self-resumption, no handler call, pending polls leave the head
untouched, resolving polls consume it exactly once. -/
theorem poll_phase2_cases (hnd : T → Fut O) (f2 : Option (Fut O))
    (f3 : Option (Fut (Except RE B))) (r : Option H)
    (st : PollStep T O H B EE RE C)
    (h : poll ctx ⟨hnd, none, f2, f3, r⟩ = some st) :
    st.depth ≤ 1 ∧ st.calls = 0 ∧
      (st.out = none → st.state.req = r ∧ st.takes = 0) ∧
      (∀ res, st.out = some res →
        st.state.req = none ∧ st.takes = 1 ∧ ∃ resp, res = .ok resp) := by
  match f2 with
  | none =>
    obtain ⟨hd, hc, hp, hr⟩ := poll_phase3_cases ctx hnd f3 r st h
    exact ⟨by omega, hc, hp, hr⟩
  | some ⟨p + 1, v⟩ => rw [poll_fut2_pending] at h; cases h; simp
  | some ⟨0, v2⟩ =>
    match r with
    | none => simp [poll, Fut.poll] at h
    | some head =>
      rw [poll_fut2_ready] at h
      cases hin : poll ctx ⟨hnd, none, none, some (ctx.respond_to v2 head), some head⟩ with
      | none =>
        simp only [hin] at h
        exact Option.noConfusion h
      | some st' =>
        simp only [hin] at h
        cases h
        obtain ⟨hd, hc, hp, hr⟩ := poll_phase3_cases ctx hnd _ _ st' hin
        exact ⟨by simp [hd], hc, hp, hr⟩

/-- Exhaustive behaviour of one external poll from any state: at most
two self-resumptions, at most one handler invocation, pending polls
leave the head untouched and consume it zero times, resolving polls
consume it exactly once. -/
theorem poll_cases (s : HandlerWrapperResponse T O H B EE RE)
    (st : PollStep T O H B EE RE C) (h : poll ctx s = some st) :
    st.depth ≤ 2 ∧ st.calls ≤ 1 ∧
      (st.out = none → st.state.req = s.req ∧ st.takes = 0) ∧
      (∀ res, st.out = some res →
        st.state.req = none ∧ st.takes = 1 ∧ ∃ resp, res = .ok resp) := by
  rcases s with ⟨hnd, f1, f2, f3, r⟩
  match f1 with
  | none =>
    obtain ⟨hd, hc, hp, hr⟩ := poll_phase2_cases ctx hnd f2 f3 r st h
    exact ⟨by omega, by omega, hp, hr⟩
  | some ⟨p + 1, v⟩ => rw [poll_fut1_pending] at h; cases h; simp
  | some ⟨0, .error e⟩ =>
    match r with
    | some head => rw [poll_fut1_err] at h; cases h; simp
    | none => simp [poll, Fut.poll] at h
  | some ⟨0, .ok param⟩ =>
    rw [poll_fut1_ok] at h
    cases hin : poll (C := C) ctx ⟨hnd, none, some (hnd param), f3, r⟩ with
    | none =>
      simp only [hin] at h
      exact Option.noConfusion h
    | some st' =>
      simp only [hin] at h
      cases h
      obtain ⟨hd, hc, hp, hr⟩ := poll_phase2_cases ctx hnd _ f3 r st' hin
      refine ⟨?_, ?_, hp, hr⟩
      · simp only [PollStep.depth]; omega
      · simp only [PollStep.calls]; omega

/-- Completing the dispatch future from any state, by any number of
polls, consumes the head exactly once in total, and the final state
no longer holds the head. -/
theorem run_takes_once (fuel : Nat) (s : HandlerWrapperResponse T O H B EE RE)
    (rr : RunResult T O H B EE RE C) (h : run ctx fuel s = some rr) :
    rr.takes = 1 ∧ rr.state.req = none := by
  induction fuel generalizing s rr with
  | zero => simp [run] at h
  | succ n ih =>
    rw [run] at h
    cases hp : poll ctx s with
    | none =>
      simp only [hp] at h
      exact Option.noConfusion h
    | some st =>
      obtain ⟨-, -, hpend, hready⟩ := poll_cases ctx s st hp
      simp only [hp] at h
      cases hout : st.out with
      | some res =>
        simp only [hout] at h
        cases h
        obtain ⟨hreq, htakes, -⟩ := hready res hout
        exact ⟨htakes, hreq⟩
      | none =>
        simp only [hout] at h
        cases hrun : run ctx n st.state with
        | none =>
          simp only [hrun] at h
          exact Option.noConfusion h
        | some rr' =>
          simp only [hrun] at h
          cases h
          obtain ⟨ht1, hr1⟩ := ih st.state rr' hrun
          obtain ⟨-, ht0⟩ := hpend hout
          simp [ht0, ht1, hr1]

/-- Whenever the dispatch future resolves, its output is `Ok`: no
failure is surfaced as the adapter's own error value. -/
theorem run_result_ok (fuel : Nat) (s : HandlerWrapperResponse T O H B EE RE)
    (rr : RunResult T O H B EE RE C) (h : run ctx fuel s = some rr) :
    ∃ resp, rr.result = .ok resp := by
  induction fuel generalizing s rr with
  | zero => simp [run] at h
  | succ n ih =>
    rw [run] at h
    cases hp : poll ctx s with
    | none =>
      simp only [hp] at h
      exact Option.noConfusion h
    | some st =>
      obtain ⟨-, -, -, hready⟩ := poll_cases ctx s st hp
      simp only [hp] at h
      cases hout : st.out with
      | some res =>
        simp only [hout] at h
        cases h
        obtain ⟨-, -, resp, hrok⟩ := hready res hout
        exact ⟨resp, hrok⟩
      | none =>
        simp only [hout] at h
        cases hrun : run ctx n st.state with
        | none =>
          simp only [hrun] at h
          exact Option.noConfusion h
        | some rr' =>
          simp only [hrun] at h
          cases h
          exact ih st.state rr' hrun

end InvariantLemmas

/-- `Handler::call` of the arity-1 impl from `factory_tuple!((0, A))`:
`(self)(param.0)`. -/
def factory_tuple_call1 {A R : Type} (f : A → R) (param : A) : R :=
  f param

/-- `Handler::call` of the arity-2 impl from
`factory_tuple!((0, A), (1, B))`: `(self)(param.0, param.1)`. -/
def factory_tuple_call2 {A B R : Type} (f : A → B → R) (param : A × B) : R :=
  match param with
  | (a, b) => f a b

/-- `Handler::call` of the arity-3 impl. -/
def factory_tuple_call3 {A B C R : Type} (f : A → B → C → R)
    (param : A × B × C) : R :=
  match param with
  | (a, b, c) => f a b c

/-- `Handler::call` of the arity-4 impl. -/
def factory_tuple_call4 {A B C D R : Type} (f : A → B → C → D → R)
    (param : A × B × C × D) : R :=
  match param with
  | (a, b, c, d) => f a b c d

/-- `Handler::call` of the arity-5 impl. -/
def factory_tuple_call5 {A B C D E R : Type} (f : A → B → C → D → E → R)
    (param : A × B × C × D × E) : R :=
  match param with
  | (a, b, c, d, e) => f a b c d e

/-- `Handler::call` of the arity-6 impl. -/
def factory_tuple_call6 {A B C D E F R : Type} (f : A → B → C → D → E → F → R)
    (param : A × B × C × D × E × F) : R :=
  match param with
  | (a, b, c, d, e, x) => f a b c d e x

/-- `Handler::call` of the arity-7 impl. -/
def factory_tuple_call7 {A B C D E F G R : Type}
    (f : A → B → C → D → E → F → G → R)
    (param : A × B × C × D × E × F × G) : R :=
  match param with
  | (a, b, c, d, e, x, g) => f a b c d e x g

/-- `Handler::call` of the arity-8 impl. -/
def factory_tuple_call8 {A B C D E F G I R : Type}
    (f : A → B → C → D → E → F → G → I → R)
    (param : A × B × C × D × E × F × G × I) : R :=
  match param with
  | (a, b, c, d, e, x, g, i) => f a b c d e x g i

/-- `Handler::call` of the arity-9 impl. -/
def factory_tuple_call9 {A B C D E F G I J R : Type}
    (f : A → B → C → D → E → F → G → I → J → R)
    (param : A × B × C × D × E × F × G × I × J) : R :=
  match param with
  | (a, b, c, d, e, x, g, i, j) => f a b c d e x g i j

/-- `Handler::call` of the arity-10 impl from
`factory_tuple!((0, A), ..., (9, J))`:
`(self)(param.0, ..., param.9)`. -/
def factory_tuple_call10 {A B C D E F G I J K R : Type}
    (f : A → B → C → D → E → F → G → I → J → K → R)
    (param : A × B × C × D × E × F × G × I × J × K) : R :=
  match param with
  | (a, b, c, d, e, x, g, i, j, k) => f a b c d e x g i j k

end Dispatch

namespace Logger

/-- One unit of the access-log format string
(`FormatText` in logger.rs). -/
inductive FormatText where
  | Str (s : String)
  | Percent
  | RequestLine
  | RequestTime
  | ResponseStatus
  | ResponseSize
  | Time
  | TimeMillis
  | RemoteAddr
  | UrlPath
  | RequestHeader (name : String)
  | ResponseHeader (name : String)
  | EnvironHeader (name : String)
deriving DecidableEq, Repr

/-- The request as the logger middleware observes it. -/
structure WebRequest where
  path : String
  query_string : String
  method : String
  version : String
  headers : List (String × String)
  remote : Option String
deriving DecidableEq, Repr

/-- The response envelope as the logger middleware observes it:
status, headers and a body value. -/
structure WebResponse (B : Type) where
  status : Nat
  headers : List (String × String)
  body : B
deriving DecidableEq, Repr

/-- `WebResponse::map_body` restricted to what the logger uses: replace
the body, keep status and headers. -/
def WebResponse.map_body {B C : Type} (r : WebResponse B) (f : B → C) :
    WebResponse C :=
  ⟨r.status, r.headers, f r.body⟩

/-- Header lookup, modelling `headers().get(name)` followed by
`to_str`. -/
def getHeader (hs : List (String × String)) (name : String) : Option String :=
  (hs.find? (fun kv => kv.1 = name)).map (fun kv => kv.2)

/-- The ambient context of the drop-time renderer: the current instant,
the process environment, and the opaque fixed-point formatters for the
`%T`/`%D` elapsed-time units (floating-point formatting is outside the
model; only their inputs matter here). -/
structure RenderEnv where
  now : Int
  env : String → Option String
  fmtSeconds : Int → String
  fmtMillis : Int → String

/-- `FormatText::render`: the drop-time rendering of one unit against
the accumulated response size and the entry time.  Units already
replaced by `Str` render their text, `%b` renders the accumulated
size in decimal, and the request/response units that were not
replaced render nothing (the source's catch-all `Ok(())`). -/
def FormatText.render (re : RenderEnv) (size : Nat) (entry_time : Int) :
    FormatText → String
  | .Str s => s
  | .Percent => "%"
  | .ResponseSize => toString size
  | .Time => re.fmtSeconds (re.now - entry_time)
  | .TimeMillis => re.fmtMillis (re.now - entry_time)
  | .EnvironHeader name =>
    match re.env name with
    | some v => v
    | none => "-"
  | _ => ""

/-- `FormatText::render_response`: replace the response-dependent units
by their rendered text; all other units are untouched. -/
def FormatText.render_response {B : Type} (res : WebResponse B) :
    FormatText → FormatText
  | .ResponseStatus => .Str (toString res.status)
  | .ResponseHeader name =>
    .Str (match getHeader res.headers name with
          | some v => v
          | none => "-")
  | t => t

/-- `FormatText::render_request`: replace the request-dependent units
by their rendered text; all other units are untouched.  The
`%t` unit renders the entry instant through the opaque rfc3339
formatter `fmtEntry`. -/
def FormatText.render_request (fmtEntry : Int → String) (now : Int)
    (req : WebRequest) : FormatText → FormatText
  | .RequestLine =>
    .Str (if req.query_string = "" then
            req.method ++ " " ++ req.path ++ " " ++ req.version
          else
            req.method ++ " " ++ req.path ++ "?" ++ req.query_string ++ " "
              ++ req.version)
  | .UrlPath => .Str req.path
  | .RequestTime => .Str (fmtEntry now)
  | .RequestHeader name =>
    .Str (match getHeader req.headers name with
          | some v => v
          | none => "-")
  | .RemoteAddr =>
    .Str (match req.remote with
          | some remote => remote
          | none => "-")
  | t => t

/-- The `Inner` state shared by a `Logger` and its middleware: the
format and the excluded-path set. -/
structure Inner where
  format : List FormatText
  exclude : List String

/-- The body wrapper `StreamLog`, specialised to a body that is a
stream of poll outcomes (see `BodyChunk`). -/
inductive BodyChunk where
  | pending
  | chunk (data : List Nat)
  | chunkErr (e : String)
  | eof
deriving DecidableEq, Repr

/-- `StreamLog`: the wrapped body, the format to log at drop time
(`none` = nothing will be logged), the accumulated body size, and the
entry time. -/
structure StreamLog (B : Type) where
  body : B
  format : Option (List FormatText)
  size : Nat
  time : Int
deriving Repr

/-- One poll of the underlying body stream: pop the next outcome;
an exhausted stream keeps answering end-of-stream. -/
def pollBodyStream : List BodyChunk → List BodyChunk × BodyChunk
  | [] => ([], .eof)
  | c :: rest => (rest, c)

/-- `StreamLog::poll_next_chunk`: poll the inner body; on
`Ready(Some(Ok(chunk)))` add the chunk's byte length to `size` and
yield the chunk; every other outcome is passed through unchanged. -/
def StreamLog.poll_next_chunk (s : StreamLog (List BodyChunk)) :
    StreamLog (List BodyChunk) × BodyChunk :=
  match pollBodyStream s.body with
  | (rest, .chunk data) =>
    ({ s with body := rest, size := s.size + data.length }, .chunk data)
  | (rest, v) => ({ s with body := rest }, v)

/-- `Drop for StreamLog`: if a format is stored, render every unit
against the accumulated size and entry time and emit the concatenated
line; otherwise emit nothing. -/
def StreamLog.drop_log {B : Type} (re : RenderEnv) (s : StreamLog B) :
    Option String :=
  s.format.map (fun fmt =>
    String.join (fmt.map (FormatText.render re s.size s.time)))

/-- The pending middleware response `LoggerResponse`: the inner
service's future, the entry time, and the format (`none` for excluded
paths). -/
structure LoggerResponse (E B : Type) where
  fut : Fut (Except E (WebResponse B))
  time : Int
  format : Option (List FormatText)

/-- `LoggerMiddleware::call` together with the count of inner-service
invocations it performs (one in either branch): if the request path is
in the exclude set, forward with no format; otherwise render the
request-dependent units now and store the rendered format. -/
def LoggerMiddleware.call {E B : Type} (inner : Inner)
    (svc : WebRequest → Fut (Except E (WebResponse B)))
    (fmtEntry : Int → String) (now : Int) (req : WebRequest) :
    LoggerResponse E B × Nat :=
  if inner.exclude.contains req.path then
    (⟨svc req, now, none⟩, 1)
  else
    (⟨svc req, now,
      some (inner.format.map (FormatText.render_request fmtEntry now req))⟩, 1)

/-- One poll of `LoggerResponse`: pending while the inner future is
pending; an inner error is returned as the middleware's error; on an
inner response, render the response-dependent units (when a format is
stored), take the format, and wrap the body in a `StreamLog` with
`size := 0`. -/
def LoggerResponse.poll {E B : Type} (s : LoggerResponse E B) :
    LoggerResponse E B ⊕ Except E (WebResponse (StreamLog B)) :=
  match s.fut.poll with
  | .inl f' => .inl { s with fut := f' }
  | .inr (.error e) => .inr (.error e)
  | .inr (.ok res) =>
    .inr (.ok (res.map_body (fun body =>
      ⟨body, s.format.map (List.map (FormatText.render_response res)),
        0, s.time⟩)))

/-- Drive `LoggerResponse` with at most `fuel` polls. -/
def LoggerResponse.run {E B : Type} :
    Nat → LoggerResponse E B → Option (Except E (WebResponse (StreamLog B)))
  | 0, _ => none
  | n + 1, s =>
    match s.poll with
    | .inl s' => LoggerResponse.run n s'
    | .inr r => some r

/-- Repeatedly poll a `StreamLog` body, collecting the yielded
outcomes in order. -/
def StreamLog.run_chunks :
    Nat → StreamLog (List BodyChunk) →
    StreamLog (List BodyChunk) × List BodyChunk
  | 0, s => (s, [])
  | n + 1, s =>
    match s.poll_next_chunk with
    | (s', o) =>
      match StreamLog.run_chunks n s' with
      | (s'', os) => (s'', o :: os)

/-- The number of body bytes among a list of yielded outcomes: the sum
of the lengths of the successful chunks. -/
def chunkBytes : List BodyChunk → Nat
  | [] => 0
  | .chunk data :: rest => data.length + chunkBytes rest
  | _ :: rest => chunkBytes rest

/-- The first `n` outcomes of a body stream, padded with end-of-stream
once exhausted: what a pass-through wrapper must yield. -/
def takePad : Nat → List BodyChunk → List BodyChunk
  | 0, _ => []
  | n + 1, [] => .eof :: takePad n []
  | n + 1, c :: rest => c :: takePad n rest

/-- Behaviour of `poll_next_chunk` under iteration: the wrapper yields
the underlying stream's outcomes unchanged, accumulates exactly the
successful chunks' byte lengths into `size`, and never touches the
stored format or entry time. -/
theorem run_chunks_spec (n : Nat) (s : StreamLog (List BodyChunk)) :
    (StreamLog.run_chunks n s).2 = takePad n s.body ∧
      (StreamLog.run_chunks n s).1.size = s.size + chunkBytes (takePad n s.body) ∧
      (StreamLog.run_chunks n s).1.format = s.format ∧
      (StreamLog.run_chunks n s).1.time = s.time := by
  induction n generalizing s with
  | zero => simp [StreamLog.run_chunks, takePad, chunkBytes]
  | succ m ih =>
    match hb : s.body with
    | [] =>
      have := ih { s with body := [] }
      simp [StreamLog.run_chunks, StreamLog.poll_next_chunk, pollBodyStream,
        hb, takePad, chunkBytes] at this ⊢
      exact this
    | .chunk data :: rest =>
      have := ih { s with body := rest, size := s.size + data.length }
      simp [StreamLog.run_chunks, StreamLog.poll_next_chunk, pollBodyStream,
        hb, takePad, chunkBytes] at this ⊢
      refine ⟨this.1, by omega, this.2.2⟩
    | .pending :: rest =>
      have := ih { s with body := rest }
      simp [StreamLog.run_chunks, StreamLog.poll_next_chunk, pollBodyStream,
        hb, takePad, chunkBytes] at this ⊢
      exact this
    | .chunkErr e :: rest =>
      have := ih { s with body := rest }
      simp [StreamLog.run_chunks, StreamLog.poll_next_chunk, pollBodyStream,
        hb, takePad, chunkBytes] at this ⊢
      exact this
    | .eof :: rest =>
      have := ih { s with body := rest }
      simp [StreamLog.run_chunks, StreamLog.poll_next_chunk, pollBodyStream,
        hb, takePad, chunkBytes] at this ⊢
      exact this

/-- Driving `LoggerResponse` with just enough polls resolves it to the
inner service's outcome: errors pass through, and a response keeps its
status and headers with the body wrapped in a fresh `StreamLog`
carrying the (response-rendered) stored format and `size := 0`. -/
theorem logger_run_resolves {E B : Type} (s : LoggerResponse E B) :
    LoggerResponse.run (s.fut.pending + 1) s =
      some (match s.fut.value with
            | .error e => .error e
            | .ok res =>
              .ok (res.map_body (fun body =>
                ⟨body, s.format.map (List.map (FormatText.render_response res)),
                  0, s.time⟩))) := by
  rcases s with ⟨⟨p, v⟩, time, fmt⟩
  induction p with
  | zero =>
    match v with
    | .error e => rfl
    | .ok res => rfl
  | succ q ih =>
    simpa [LoggerResponse.run, LoggerResponse.poll, Fut.poll] using ih

end Logger

/-! ### Concrete fixtures used by the witnesses -/

/-- A concrete dispatch context whose responder succeeds, adding the
handler output to the head. -/
def ctxW : Dispatch.Ctx Nat Nat Nat Nat Nat Nat Nat :=
  ⟨fun o h => ⟨0, .ok (o + h)⟩, id, id⟩

/-- A concrete dispatch context whose responder fails. -/
def ctxE : Dispatch.Ctx Nat Nat Nat Nat Nat Nat Nat :=
  ⟨fun o _ => ⟨0, .error (o * 2)⟩, id, id⟩

/-- A concrete adapter whose handler increments its parameter. -/
def wW : Dispatch.HandlerWrapper Nat Nat :=
  ⟨fun t => ⟨0, t + 1⟩⟩

/-- A concrete extractor that succeeds after one pending poll. -/
def frOk : Nat → Nat → Fut (Except Nat Nat) :=
  fun head payload => ⟨1, .ok (head + payload)⟩

/-- A concrete extractor that fails after one pending poll. -/
def frErr : Nat → Nat → Fut (Except Nat Nat) :=
  fun _ _ => ⟨1, .error 5⟩

/-- The run outcome of `wW` on `frOk` at head 7, payload 0. -/
def rrW1 : Dispatch.RunResult Nat Nat Nat Nat Nat Nat Nat :=
  ⟨⟨wW.hnd, none, none, some ⟨0, .ok 15⟩, none⟩, .ok (.new 7 15), 1, 1⟩

/-- A resolved dispatch state about to be polled. -/
def sW7 : Dispatch.HandlerWrapperResponse Nat Nat Nat Nat Nat Nat :=
  ⟨wW.hnd, some ⟨0, .ok 5⟩, none, none, some 7⟩

/-- The poll outcome of `sW7` under `ctxW`. -/
def stW7 : Dispatch.PollStep Nat Nat Nat Nat Nat Nat Nat :=
  ⟨⟨wW.hnd, none, none, some ⟨0, .ok 13⟩, none⟩, some (.ok (.new 7 13)), 1, 2, 1⟩

/-- A concrete logger configuration logging `%b`, excluding
`/health`. -/
def innerW : Logger.Inner :=
  ⟨[Logger.FormatText.ResponseSize], ["/health"]⟩

/-- A concrete inner service. -/
def svcW : Logger.WebRequest → Fut (Except Nat (Logger.WebResponse Nat)) :=
  fun _ => ⟨1, .ok ⟨200, [("x-test", "ttt")], 3⟩⟩

/-- A concrete request for the excluded path. -/
def reqW : Logger.WebRequest :=
  ⟨"/health", "", "GET", "HTTP/1.1", [], none⟩

/-- A concrete renderer environment. -/
def reW : Logger.RenderEnv :=
  ⟨0, fun _ => none, fun _ => "", fun _ => ""⟩

/-! ### The claims -/

/-- Claim C1: for every request, the dispatch future polled to completion
resolves without panicking (the panic value `none` never occurs, so the
`unreachable!()` arm is never reached while unresolved) and the adapter's
result is `Ok`; moreover every completed run of the future, with whatever
fuel, yields an `Ok` output — extraction and responder failures are
rendered into responses, never surfaced as the adapter's own error. -/
theorem claim_C1 {T O H P B EE RE C : Type} (ctx : Dispatch.Ctx T O H B EE RE C)
    (w : Dispatch.HandlerWrapper T O) (fr : H → P → Fut (Except EE T))
    (head : H) (payload : P) :
    (∃ resp : Dispatch.WebResponse H B C,
      Dispatch.run ctx (Dispatch.neededFuel ctx w.hnd (fr head payload) head)
          (w.call fr head payload) =
        some ⟨Dispatch.finalState ctx w.hnd (fr head payload).value head,
          .ok resp, Dispatch.dispatchCalls (fr head payload).value, 1⟩) ∧
    (∀ fuel rr,
      Dispatch.run ctx fuel (w.call (B := B) fr head payload) = some rr →
        ∃ resp, rr.result = .ok resp) :=
  ⟨⟨_, Dispatch.run_dispatch ctx w.hnd (fr head payload) head⟩,
    fun fuel rr h => Dispatch.run_result_ok ctx fuel _ rr h⟩

/-- Witness for C1 at a concrete adapter, extractor and request. -/
theorem claim_C1_witness : ∃ resp, rrW1.result = .ok resp :=
  (claim_C1 ctxW wW frOk 7 0).2 3 rrW1 (by
    simp [Dispatch.run, Dispatch.poll, Fut.poll, Dispatch.HandlerWrapper.call,
      ctxW, wW, frOk, rrW1])

/-- Claim C2: when extraction fails, the adapter resolves to `Ok` of the
error-rendered response built from the extraction error and the request
head, and the handler is invoked zero times. -/
theorem claim_C2 {T O H P B EE RE C : Type} (ctx : Dispatch.Ctx T O H B EE RE C)
    (w : Dispatch.HandlerWrapper T O) (fr : H → P → Fut (Except EE T))
    (head : H) (payload : P) (e : EE)
    (h : (fr head payload).value = .error e) :
    Dispatch.run ctx (Dispatch.neededFuel ctx w.hnd (fr head payload) head)
        (w.call fr head payload) =
      some ⟨Dispatch.finalState ctx w.hnd (.error e) head,
        .ok (.from_err (ctx.into_ext e) head), 0, 1⟩ := by
  have hrd := Dispatch.run_dispatch ctx w.hnd (fr head payload) head
  rw [h] at hrd
  simpa [Dispatch.dispatchResult, Dispatch.dispatchCalls,
    Dispatch.HandlerWrapper.call] using hrd

/-- Witness for C2 at a concrete failing extractor. -/
theorem claim_C2_witness :
    Dispatch.run ctxW (Dispatch.neededFuel ctxW wW.hnd (frErr 7 0) 7)
        (wW.call frErr 7 0) =
      some ⟨Dispatch.finalState ctxW wW.hnd (.error 5) 7,
        .ok (.from_err (ctxW.into_ext 5) 7), 0, 1⟩ :=
  claim_C2 ctxW wW frErr 7 0 5 rfl

/-- Claim C3: when extraction, invocation and response conversion all
succeed, the adapter resolves to `Ok` of the response built from the
original head and the responder's body, and the handler is invoked
exactly once over the whole run (not once per poll). -/
theorem claim_C3 {T O H P B EE RE C : Type} (ctx : Dispatch.Ctx T O H B EE RE C)
    (w : Dispatch.HandlerWrapper T O) (fr : H → P → Fut (Except EE T))
    (head : H) (payload : P) (param : T) (b : B)
    (h1 : (fr head payload).value = .ok param)
    (h2 : (ctx.respond_to (w.hnd param).value head).value = .ok b) :
    Dispatch.run ctx (Dispatch.neededFuel ctx w.hnd (fr head payload) head)
        (w.call fr head payload) =
      some ⟨Dispatch.finalState ctx w.hnd (.ok param) head,
        .ok (.new head b), 1, 1⟩ := by
  have hrd := Dispatch.run_dispatch ctx w.hnd (fr head payload) head
  rw [h1] at hrd
  simpa [Dispatch.dispatchResult, Dispatch.dispatchCalls,
    Dispatch.HandlerWrapper.call, h2] using hrd

/-- Witness for C3 at a concrete fully successful pipeline. -/
theorem claim_C3_witness :
    Dispatch.run ctxW (Dispatch.neededFuel ctxW wW.hnd (frOk 7 0) 7)
        (wW.call frOk 7 0) =
      some ⟨Dispatch.finalState ctxW wW.hnd (.ok 7) 7,
        .ok (.new 7 15), 1, 1⟩ :=
  claim_C3 ctxW wW frOk 7 0 7 15 rfl rfl

/-- Claim C4: when extraction succeeds but the responder future resolves
to an error, the handler has been invoked exactly once and the adapter
resolves to `Ok` of the error-rendered response built from the
conversion error and the head. -/
theorem claim_C4 {T O H P B EE RE C : Type} (ctx : Dispatch.Ctx T O H B EE RE C)
    (w : Dispatch.HandlerWrapper T O) (fr : H → P → Fut (Except EE T))
    (head : H) (payload : P) (param : T) (e : RE)
    (h1 : (fr head payload).value = .ok param)
    (h2 : (ctx.respond_to (w.hnd param).value head).value = .error e) :
    Dispatch.run ctx (Dispatch.neededFuel ctx w.hnd (fr head payload) head)
        (w.call fr head payload) =
      some ⟨Dispatch.finalState ctx w.hnd (.ok param) head,
        .ok (.from_err (ctx.into_resp e) head), 1, 1⟩ := by
  have hrd := Dispatch.run_dispatch ctx w.hnd (fr head payload) head
  rw [h1] at hrd
  simpa [Dispatch.dispatchResult, Dispatch.dispatchCalls,
    Dispatch.HandlerWrapper.call, h2] using hrd

/-- Witness for C4 at a concrete failing responder. -/
theorem claim_C4_witness :
    Dispatch.run ctxE (Dispatch.neededFuel ctxE wW.hnd (frOk 7 0) 7)
        (wW.call frOk 7 0) =
      some ⟨Dispatch.finalState ctxE wW.hnd (.ok 7) 7,
        .ok (.from_err (ctxE.into_resp 16) 7), 1, 1⟩ :=
  claim_C4 ctxE wW frOk 7 0 7 16 rfl rfl

/-- Claim C5: for each arity k in 1..10, a callable over k positional
parameters conforms to the Handler capability through the tuple-shaped
`factory_tuple!` implementation, and its invocation with an extracted
k-tuple passes component i of the tuple as argument i of the call, in
declared order. -/
theorem claim_C5 {A B C D E F G I J K R : Type}
    (f1 : A → R) (f2 : A → B → R) (f3 : A → B → C → R)
    (f4 : A → B → C → D → R) (f5 : A → B → C → D → E → R)
    (f6 : A → B → C → D → E → F → R) (f7 : A → B → C → D → E → F → G → R)
    (f8 : A → B → C → D → E → F → G → I → R)
    (f9 : A → B → C → D → E → F → G → I → J → R)
    (f10 : A → B → C → D → E → F → G → I → J → K → R)
    (a : A) (b : B) (c : C) (d : D) (e : E) (x : F) (g : G) (i : I)
    (j : J) (k : K) :
    Dispatch.factory_tuple_call1 f1 a = f1 a ∧
    Dispatch.factory_tuple_call2 f2 (a, b) = f2 a b ∧
    Dispatch.factory_tuple_call3 f3 (a, b, c) = f3 a b c ∧
    Dispatch.factory_tuple_call4 f4 (a, b, c, d) = f4 a b c d ∧
    Dispatch.factory_tuple_call5 f5 (a, b, c, d, e) = f5 a b c d e ∧
    Dispatch.factory_tuple_call6 f6 (a, b, c, d, e, x) = f6 a b c d e x ∧
    Dispatch.factory_tuple_call7 f7 (a, b, c, d, e, x, g) = f7 a b c d e x g ∧
    Dispatch.factory_tuple_call8 f8 (a, b, c, d, e, x, g, i) =
      f8 a b c d e x g i ∧
    Dispatch.factory_tuple_call9 f9 (a, b, c, d, e, x, g, i, j) =
      f9 a b c d e x g i j ∧
    Dispatch.factory_tuple_call10 f10 (a, b, c, d, e, x, g, i, j, k) =
      f10 a b c d e x g i j k :=
  ⟨rfl, rfl, rfl, rfl, rfl, rfl, rfl, rfl, rfl, rfl⟩

/-- Claim C6: the stored request-head option is `Some` from construction
on, every pending poll leaves it untouched and consumes it zero times,
every resolving poll consumes it exactly once (leaving `none`), and any
complete run of the dispatch future consumes the head exactly once in
total — never zero or two times. -/
theorem claim_C6 {T O H P B EE RE C : Type} (ctx : Dispatch.Ctx T O H B EE RE C)
    (w : Dispatch.HandlerWrapper T O) (fr : H → P → Fut (Except EE T))
    (head : H) (payload : P) :
    (w.call fr head payload :
      Dispatch.HandlerWrapperResponse T O H B EE RE).req = some head ∧
    (∀ s st, Dispatch.poll ctx s = some st → st.out = none →
      st.state.req = s.req ∧ st.takes = 0) ∧
    (∀ s st r, Dispatch.poll ctx s = some st → st.out = some r →
      st.state.req = none ∧ st.takes = 1) ∧
    (∀ fuel rr, Dispatch.run ctx fuel (w.call fr head payload) = some rr →
      rr.takes = 1 ∧ rr.state.req = none) := by
  refine ⟨rfl, ?_, ?_, ?_⟩
  · exact fun s st h ho => (Dispatch.poll_cases ctx s st h).2.2.1 ho
  · intro s st r h ho
    obtain ⟨hq, ht, -⟩ := (Dispatch.poll_cases ctx s st h).2.2.2 r ho
    exact ⟨hq, ht⟩
  · exact fun fuel rr h => Dispatch.run_takes_once ctx fuel _ rr h

/-- Witness for C6: a concrete complete run consumes the head exactly
once and ends with the head slot empty. -/
theorem claim_C6_witness : rrW1.takes = 1 ∧ rrW1.state.req = none :=
  (claim_C6 ctxW wW frOk 7 0).2.2.2 3 rrW1 (by
    simp [Dispatch.run, Dispatch.poll, Fut.poll, Dispatch.HandlerWrapper.call,
      ctxW, wW, frOk, rrW1])

/-- Claim C7: one external call of the dispatch future's poll self-resumes
at most twice (once per phase boundary: extracting to invoking and
invoking to responding), i.e. reaches nesting depth at most 3; the
re-entry count is bounded by 2 for every input state. -/
theorem claim_C7 {T O H B EE RE C : Type} (ctx : Dispatch.Ctx T O H B EE RE C)
    (s : Dispatch.HandlerWrapperResponse T O H B EE RE)
    (st : Dispatch.PollStep T O H B EE RE C)
    (h : Dispatch.poll ctx s = some st) : st.depth ≤ 2 :=
  (Dispatch.poll_cases ctx s st h).1

/-- Witness for C7: a poll that crosses both phase boundaries in one
call reaches exactly the bound. -/
theorem claim_C7_witness : stW7.depth ≤ 2 :=
  claim_C7 ctxW sW7 stW7 (by
    simp [Dispatch.poll, Fut.poll, ctxW, wW, sW7, stW7])

/-- Claim C8: `clone_handler` yields an adapter holding a clone of the
same handler, and for every request given identically to both adapters
(same context, extractor behaviour and fuel), the cloned adapter's run
produces exactly the same outcome as the original's. -/
theorem claim_C8 {T O H P B EE RE C : Type} (ctx : Dispatch.Ctx T O H B EE RE C)
    (w : Dispatch.HandlerWrapper T O) (fr : H → P → Fut (Except EE T))
    (head : H) (payload : P) (fuel : Nat) :
    w.clone_handler.hnd = w.hnd ∧
    Dispatch.run ctx fuel (w.clone_handler.call (B := B) fr head payload) =
      Dispatch.run ctx fuel (w.call fr head payload) :=
  ⟨rfl, rfl⟩

/-- Claim C9: for a request whose path is in the exclude set, the logger
middleware still calls the inner service exactly once and forwards its
future unchanged with no stored format; on completion the response keeps
the inner service's status and headers with the body wrapped in a
`StreamLog` carrying no format, so neither request rendering, response
rendering nor the drop-time log line occurs. -/
theorem claim_C9 {E B : Type} (inner : Logger.Inner)
    (svc : Logger.WebRequest → Fut (Except E (Logger.WebResponse B)))
    (fmtEntry : Int → String) (now : Int) (req : Logger.WebRequest)
    (re : Logger.RenderEnv)
    (h : inner.exclude.contains req.path = true) :
    (Logger.LoggerMiddleware.call inner svc fmtEntry now req).2 = 1 ∧
    (Logger.LoggerMiddleware.call inner svc fmtEntry now req).1 =
      ⟨svc req, now, none⟩ ∧
    (Logger.LoggerResponse.run ((svc req).pending + 1)
        (Logger.LoggerMiddleware.call inner svc fmtEntry now req).1 =
      some (match (svc req).value with
            | .error e => .error e
            | .ok res =>
              .ok ⟨res.status, res.headers, ⟨res.body, none, 0, now⟩⟩)) ∧
    (∀ res : Logger.WebResponse B, (svc req).value = .ok res →
      Logger.StreamLog.drop_log re
        (⟨res.body, none, 0, now⟩ : Logger.StreamLog B) = none) := by
  have hcall : Logger.LoggerMiddleware.call inner svc fmtEntry now req =
      (⟨svc req, now, none⟩, 1) := by
    simp only [Logger.LoggerMiddleware.call, h, if_true]
  refine ⟨by rw [hcall], by rw [hcall], ?_, ?_⟩
  · rw [hcall]
    have hrun :=
      Logger.logger_run_resolves (⟨svc req, now, none⟩ : Logger.LoggerResponse E B)
    cases hv : (svc req).value with
    | error e =>
      simp only [hv] at hrun
      simpa [hv] using hrun
    | ok res =>
      simp only [hv] at hrun
      simpa [hv, Logger.WebResponse.map_body] using hrun
  · intro res hres
    simp [Logger.StreamLog.drop_log]

/-- Witness for C9: the excluded path `/health` on a concrete service. -/
theorem claim_C9_witness :
    Logger.LoggerResponse.run ((svcW reqW).pending + 1)
        (Logger.LoggerMiddleware.call innerW svcW (fun _ => "") 0 reqW).1 =
      some (match (svcW reqW).value with
            | .error e => .error e
            | .ok res =>
              .ok ⟨res.status, res.headers, ⟨res.body, none, 0, 0⟩⟩) :=
  (claim_C9 innerW svcW (fun _ => "") 0 reqW reW (by rfl)).2.2.1

/-- Claim C10: iterating `poll_next_chunk` passes the underlying body's
outcomes through unmodified, accumulates into `size` exactly the sum of
the byte lengths of the chunks yielded so far (from 0), and it is this
accumulated body-byte count — not anything involving response headers —
that the `%b` unit renders at drop time. -/
theorem claim_C10 (n : Nat) (body : List Logger.BodyChunk)
    (fmt : Option (List Logger.FormatText)) (time : Int)
    (re : Logger.RenderEnv) :
    (Logger.StreamLog.run_chunks n ⟨body, fmt, 0, time⟩).2 =
      Logger.takePad n body ∧
    (Logger.StreamLog.run_chunks n ⟨body, fmt, 0, time⟩).1.size =
      Logger.chunkBytes (Logger.takePad n body) ∧
    Logger.FormatText.render re
        (Logger.StreamLog.run_chunks n ⟨body, fmt, 0, time⟩).1.size time
        Logger.FormatText.ResponseSize =
      toString (Logger.chunkBytes (Logger.takePad n body)) ∧
    Logger.StreamLog.drop_log re
        (Logger.StreamLog.run_chunks n
          ⟨body, some [Logger.FormatText.ResponseSize], 0, time⟩).1 =
      some (toString (Logger.chunkBytes (Logger.takePad n body))) := by
  obtain ⟨h1, h2, -, -⟩ := Logger.run_chunks_spec n ⟨body, fmt, 0, time⟩
  obtain ⟨-, g2, g3, g4⟩ :=
    Logger.run_chunks_spec n ⟨body, some [Logger.FormatText.ResponseSize], 0, time⟩
  refine ⟨h1, by simpa using h2, ?_, ?_⟩
  · rw [h2]
    simp [Logger.FormatText.render]
  · simp only [Logger.StreamLog.drop_log, g2, g3, g4]
    simp [Logger.FormatText.render, String.join_eq]
